import Mathlib

/-!
# Verification of the `movement` mesh-mover algorithms

Shallow embedding of the algorithmic core of `movement/monge_ampere.py` and
`movement/spring.py`.  External numerical collaborators (firedrake solves,
UFL form assembly, PETSc) are modelled as abstract data: a solver that
deterministically produces a value from the current state becomes a function
field of a model structure.  Machine floating point is modelled by exact
arithmetic (`ℚ` for the control-flow quantities, `ℝ` for the geometric
quantities); `np.isclose`/`np.allclose` tolerance tests are modelled as exact
comparisons with zero.
-/

namespace Movement

/-! ## Monge-Ampère relaxation mover: `MongeAmpereMover_Relaxation.move`

The state `S` stands for the solution data held by the mover
(`phi`, `sigma`, `phi_old`, `sigma_old` together with the monitor and volume
fields derived from them); `V` stands for coordinate fields.

* `xi` is the reference coordinate field `self.xi` (fixed snapshot).
* `gradPhi0` is the initial value of `self._grad_phi` (the zero `Function`
  created at construction), used only if the loop body never runs.
* `grad s` is the result of `self.l2_projector.solve()` from state `s`
  (deterministic in `phi_old`).
* `residual s` is the relative L2 residual reported by `self._diagnostics`
  after the monitor has been resampled on the trial geometry `xi + grad s`
  and the coordinates restored to `xi` (all determined by `s`).
* `update s` is the combined effect of `self.pseudotimestepper.solve()`,
  `self.equidistributor.solve()`, `phi_old.assign(phi)` and
  `sigma_old.assign(sigma)`.
-/

structure MAModel (S V : Type) where
  xi : V
  gradPhi0 : V
  grad : S → V
  residual : S → ℚ
  update : S → S

/-- Outcome of `MongeAmpereMover_Relaxation.move`.  `idx` is the Python loop
variable `i` at the moment of exit (the value returned on success; the
convergence/divergence messages print `i+1`).  `coords` is the value of
`self.mesh.coordinates` at the moment of the `return` or `raise`.
`nameError` models the `maxiter = 0` edge case: the loop body never runs and
`return i` hits an unbound variable after line 400 reassigned coordinates. -/
inductive MoveOutcome (S V : Type) where
  | converged (idx : ℕ) (s : S) (coords : V)
  | diverged (idx : ℕ) (s : S) (coords : V)
  | failedToConverge (idx : ℕ) (s : S) (coords : V)
  | nameError (coords : V)
deriving DecidableEq

/-- The loop `for i in range(self.maxiter)` of
`MongeAmpereMover_Relaxation.move` (monge_ampere.py lines 359-401).
`fuel` is the number of loop indices still available (`maxiter - i`),
`init0` the running `initial_norm` (set at `i = 0` to the residual itself),
`gp` the current `self._grad_phi` contents.

Per iteration the code: solves the L2 projection (`grad s`), assigns
coordinates to `xi + grad s`, resamples the monitor and volumes, restores
coordinates to `xi`, computes the diagnostics residual, and only then runs
the convergence tests in source order:
residual < rtol ⇒ break (then line 400 commits `xi + grad s` and returns i);
residual > dtol * initial_norm ⇒ raise Diverged (coordinates still `xi`);
i = maxiter - 1 ⇒ raise FailedToConverge (coordinates still `xi`);
otherwise pseudotimestepper + equidistributor (`update s`) and continue. -/
def moveAux [Add V] (M : MAModel S V) (rtol dtol : ℚ) (maxiter : ℕ) :
    ℕ → ℕ → ℚ → S → V → MoveOutcome S V
  | 0, _i, _init0, _s, gp => .nameError (M.xi + gp)
  | fuel+1, i, init0, s, _gp =>
      if M.residual s < rtol then
        .converged i s (M.xi + M.grad s)
      else if dtol * (if i = 0 then M.residual s else init0) < M.residual s then
        .diverged i s M.xi
      else if i = maxiter - 1 then
        .failedToConverge i s M.xi
      else
        moveAux M rtol dtol maxiter fuel (i+1)
          (if i = 0 then M.residual s else init0) (M.update s) (M.grad s)

/-- `MongeAmpereMover_Relaxation.move` from initial state `s0`. -/
def move [Add V] (M : MAModel S V) (rtol dtol : ℚ) (maxiter : ℕ) (s0 : S) :
    MoveOutcome S V :=
  moveAux M rtol dtol maxiter maxiter 0 0 s0 M.gradPhi0

/-- The residual that iteration `j` observes: the state entering iteration
`j` is `update^[j] s0`. -/
def resSeq (M : MAModel S V) (s0 : S) (j : ℕ) : ℚ :=
  M.residual (M.update^[j] s0)

/-- Concrete instantiation used for witnesses: states and coordinate fields
are rationals, the L2-projected gradient equals the state, the residual
diagnostic equals the state, and each pseudo-time update adds 2.  From
`s0 = 1` the residual sequence is 1, 3, 5, ... -/
def exampleModel : MAModel ℚ ℚ where
  xi := 5
  gradPhi0 := 0
  grad := fun s => s
  residual := fun s => s
  update := fun s => s + 2

/-! ## `MongeAmpereMover_Base.apply_initial_guess`

The four solution fields assigned by the initial guess
(monge_ampere.py lines 98-120). `P` is the scalar-potential field type,
`T` the Hessian tensor field type. -/

structure InitGuessState (P T : Type) where
  phi : P
  sigma : T
  phi_old : P
  sigma_old : T
deriving DecidableEq

inductive InitError where
  | needBothPhiAndSigma
deriving DecidableEq

/-- `apply_initial_guess` (monge_ampere.py lines 110-120): both supplied ⇒
assign all four fields; exactly one supplied ⇒ raise
(`Need to initialise both phi *and* sigma`, a `ValueError`, the spec's
ConfigurationError); neither ⇒ leave the state unchanged. -/
def apply_initial_guess (phi_init : Option P) (sigma_init : Option T)
    (s : InitGuessState P T) : Except InitError (InitGuessState P T) :=
  match phi_init, sigma_init with
  | some p, some q =>
      Except.ok { phi := p, sigma := q, phi_old := p, sigma_old := q }
  | some _, none => Except.error InitError.needBothPhiAndSigma
  | none, some _ => Except.error InitError.needBothPhiAndSigma
  | none, none => Except.ok s

/-- Construction path: `__init__` creates `phi`, `sigma`, `phi_old`,
`sigma_old` as zero functions and then calls
`self.apply_initial_guess(**kwargs)` (monge_ampere.py lines 271-277), so a
mismatched pair raises at construction. -/
def relaxation_construct [Zero P] [Zero T] (phi_init : Option P)
    (sigma_init : Option T) : Except InitError (InitGuessState P T) :=
  apply_initial_guess phi_init sigma_init
    { phi := 0, sigma := 0, phi_old := 0, sigma_old := 0 }

/-! ## `MongeAmpereMover_Base.l2_projector` boundary conditions

The solver itself is an external linear solve; what the source owns is the
construction of the boundary-condition list (monge_ampere.py lines
178-221).  Each boundary segment carries the assembled values
`[firedrake.assemble(abs(n[j]) * ds(i)) for j in range(dim)]`, supplied
here as data (`nInt`).  `np.allclose`/`np.isclose` are modelled as exact
comparison with zero. -/

structure BoundarySegment where
  tag : ℕ
  nInt : List ℚ
deriving DecidableEq

inductive ProjBC where
  | dirichletAll (tag : ℕ)
  | dirichletComponent (component tag : ℕ)
  | equationNormal (tag : ℕ)
  | equationTangent (tag : ℕ) (corners : List (ℕ × ℕ))
deriving DecidableEq

inductive ProjError where
  | invalidNormal (tag : ℕ)
  | notImplemented
deriving DecidableEq

/-- The corner pairs `[(i, j) for i in edges for j in edges.difference([i])]`
over the mesh's unique markers. -/
def cornerPairs (tags : List ℕ) : List (ℕ × ℕ) :=
  tags.flatMap fun a => (tags.filter fun b => decide (b ≠ a)).map fun b => (a, b)

/-- Boundary conditions contributed by one boundary segment
(monge_ampere.py lines 181-220, one pass of the marker loop):
fixed boundary ⇒ full zero Dirichlet condition;
integrated |normal| vanishing in every component ⇒ `ValueError`;
dimension ≠ 2 ⇒ `NotImplementedError` (the spec's UnsupportedOperation);
x-component vanishing ⇒ constrain only component 1 (the normal component);
y-component vanishing ⇒ constrain only component 0;
otherwise the weak zero-normal-flow equation plus the tangential equation
with the corner vertices pinned. -/
def segment_bcs (dim : ℕ) (fix : Bool) (allTags : List ℕ)
    (seg : BoundarySegment) : Except ProjError (List ProjBC) :=
  if fix then Except.ok [ProjBC.dirichletAll seg.tag]
  else if ∀ q ∈ seg.nInt, q = 0 then
    Except.error (ProjError.invalidNormal seg.tag)
  else if dim ≠ 2 then Except.error ProjError.notImplemented
  else if seg.nInt.getD 0 0 = 0 then
    Except.ok [ProjBC.dirichletComponent 1 seg.tag]
  else if seg.nInt.getD 1 0 = 0 then
    Except.ok [ProjBC.dirichletComponent 0 seg.tag]
  else
    Except.ok [ProjBC.equationNormal seg.tag,
      ProjBC.equationTangent seg.tag (cornerPairs allTags)]

def projector_bcs_list (dim : ℕ) (fix : Bool) (allTags : List ℕ) :
    List BoundarySegment → Except ProjError (List ProjBC)
  | [] => Except.ok []
  | seg :: rest =>
      match segment_bcs dim fix allTags seg with
      | Except.error e => Except.error e
      | Except.ok b =>
          match projector_bcs_list dim fix allTags rest with
          | Except.error e => Except.error e
          | Except.ok bs => Except.ok (b ++ bs)

/-- The boundary-condition list built by `l2_projector`, looping over
`self.mesh.exterior_facets.unique_markers`. -/
def l2_projector_bcs (dim : ℕ) (fix : Bool) (segs : List BoundarySegment) :
    Except ProjError (List ProjBC) :=
  projector_bcs_list dim fix (segs.map BoundarySegment.tag) segs

/-! ## Spring mover: geometric quantities (`SpringMover_Base`)

`facet_areas`, `tangents` and `angles` (spring.py lines 49-128) recover,
through external mass-matrix solves on a trace space, the facet area
(edge length in 2-D), the facet tangent `ufl.perp(n)` for the outward unit
facet normal `n`, and the angle `arccos(tangent . xhat)`; the solves are
exact recoveries of those geometric quantities, modelled here directly. -/

/-- The post-processing of `angles` (spring.py lines 123-126):
`np.maximum(np.minimum(data, ones), -ones)`. -/
noncomputable def clamp (v : ℝ) : ℝ := max (min v 1) (-1)

/-- The final `angles` value for one edge (spring.py line 127):
`np.arccos` of the clamped projected tangent. -/
noncomputable def edge_angle (v : ℝ) : ℝ := Real.arccos (clamp v)

/-- `ufl.perp`: rotate by a quarter turn, `perp n = (-n_2, n_1)`. -/
noncomputable def perp (n : ℝ × ℝ) : ℝ × ℝ := (-n.2, n.1)

/-- `ufl.FacetArea` of a 2-D facet: the length of the edge `p q`. -/
noncomputable def edgeLength (p q : ℝ × ℝ) : ℝ :=
  Real.sqrt ((q.1 - p.1) ^ 2 + (q.2 - p.2) ^ 2)

/-- The edge angle produced by the `angles` property for a boundary edge
with outward unit normal `n`: tangent is `perp n`, projection on the
x-axis is its first component. -/
noncomputable def edgeAngleOfNormal (n : ℝ × ℝ) : ℝ := edge_angle ((perp n).1)

/-! ## Spring mover: stiffness matrix (`SpringMover_Base.stiffness_matrix`)

One mesh edge, as consumed by the assembly loop (spring.py lines 139-167):
the endpoint vertex indices `i, j` (`coordinate_offset` of the plex cone),
whether `bnd.point2facetnumber[e] != -1` (exterior boundary edge), and the
edge length and angle read from the facet data. -/

structure SEdge where
  i : ℕ
  j : ℕ
  isBoundary : Bool
  length : ℝ
  angle : ℝ

/-- One `K[r][c] += x` statement of the assembly loop. -/
noncomputable def entry (a b : ℕ) (x : ℝ) (r c : ℕ) : ℝ :=
  if r = a ∧ c = b then x else 0

/-- Indicator form of `entry` used to expose linearity in the value. -/
noncomputable def ind01 (a b r c : ℕ) : ℝ := if r = a ∧ c = b then 1 else 0

/-- The contribution of a single edge to the stiffness matrix
(spring.py lines 142-167), one `entry` per `+=` statement of the source,
in source order.  `c0`/`s0` stand for `c = np.cos(angle)` and
`s = np.sin(angle)`. -/
noncomputable def edgeK (e : SEdge) (r c : ℕ) : ℝ :=
  if e.isBoundary then
    entry (2 * e.i) (2 * e.i) 1 r c +
    entry (2 * e.i + 1) (2 * e.i + 1) 1 r c +
    entry (2 * e.j) (2 * e.j) 1 r c +
    entry (2 * e.j + 1) (2 * e.j + 1) 1 r c
  else
    let l := e.length
    let c0 := Real.cos e.angle
    let s0 := Real.sin e.angle
    entry (2 * e.i) (2 * e.i) (c0 * c0 / l) r c +
    entry (2 * e.i) (2 * e.i + 1) (s0 * c0 / l) r c +
    entry (2 * e.i) (2 * e.j) (-c0 * c0 / l) r c +
    entry (2 * e.i) (2 * e.j + 1) (-s0 * c0 / l) r c +
    entry (2 * e.i + 1) (2 * e.i) (s0 * c0 / l) r c +
    entry (2 * e.i + 1) (2 * e.i + 1) (s0 * s0 / l) r c +
    entry (2 * e.i + 1) (2 * e.j) (-s0 * c0 / l) r c +
    entry (2 * e.i + 1) (2 * e.j + 1) (-s0 * s0 / l) r c +
    entry (2 * e.j) (2 * e.i) (-c0 * c0 / l) r c +
    entry (2 * e.j) (2 * e.i + 1) (-s0 * c0 / l) r c +
    entry (2 * e.j) (2 * e.j) (c0 * c0 / l) r c +
    entry (2 * e.j) (2 * e.j + 1) (s0 * c0 / l) r c +
    entry (2 * e.j + 1) (2 * e.i) (-s0 * c0 / l) r c +
    entry (2 * e.j + 1) (2 * e.i + 1) (-s0 * s0 / l) r c +
    entry (2 * e.j + 1) (2 * e.j) (s0 * c0 / l) r c +
    entry (2 * e.j + 1) (2 * e.j + 1) (s0 * s0 / l) r c

/-- `K = np.zeros((2N, 2N))` followed by `+=` contributions over all edges:
entry `(r, c)` of the assembled matrix is the sum of the per-edge
contributions. -/
noncomputable def stiffness_matrix (edges : List SEdge) (r c : ℕ) : ℝ :=
  (edges.map fun e => edgeK e r c).sum

/-- Sum of row `r` of a `2N x 2N` matrix. -/
noncomputable def rowSum (K : ℕ → ℕ → ℝ) (N r : ℕ) : ℝ :=
  ∑ c ∈ Finset.range (2 * N), K r c

/-- Placement of a 2x2 block `B` at block position `(u, v)` of the
vertex-indexed matrix: spec-side description of the assembly. -/
noncomputable def blockPlace (u v : ℕ) (B : Fin 2 → Fin 2 → ℝ) (r c : ℕ) : ℝ :=
  ∑ a : Fin 2, ∑ b : Fin 2,
    if r = 2 * u + a.val ∧ c = 2 * v + b.val then B a b else 0

/-- Modelled from the spec: the symmetric block `[[c^2, sc], [sc, s^2]] / l`
for an interior edge with angle `a` and length `l`. -/
noncomputable def springBlock (ang l : ℝ) : Fin 2 → Fin 2 → ℝ :=
  fun a b =>
    (if a = 0 then Real.cos ang else Real.sin ang) *
      (if b = 0 then Real.cos ang else Real.sin ang) / l

/-- Modelled from the spec: the unit value added to the diagonal x- and
y-degrees of freedom of a boundary edge's endpoints. -/
noncomputable def idBlock : Fin 2 → Fin 2 → ℝ := fun a b => if a = b then 1 else 0

/-- Negation of a 2x2 block. -/
noncomputable def negBlock (B : Fin 2 → Fin 2 → ℝ) : Fin 2 → Fin 2 → ℝ :=
  fun a b => -B a b

/-- The three edges of the unit right triangle with vertices
(0,0), (1,0), (0,1): every edge lies on the exterior boundary.  The outward
unit facet normals (`ufl.FacetNormal`, external geometric data) are
(0,-1) for the bottom edge, (sqrt 2/2, sqrt 2/2) for the hypotenuse and
(-1,0) for the left edge; lengths and angles are the recovered facet
quantities. -/
noncomputable def triangleEdges : List SEdge :=
  [ { i := 0, j := 1, isBoundary := true,
      length := edgeLength (0, 0) (1, 0),
      angle := edgeAngleOfNormal (0, -1) },
    { i := 1, j := 2, isBoundary := true,
      length := edgeLength (1, 0) (0, 1),
      angle := edgeAngleOfNormal (Real.sqrt 2 / 2, Real.sqrt 2 / 2) },
    { i := 0, j := 2, isBoundary := true,
      length := edgeLength (0, 0) (0, 1),
      angle := edgeAngleOfNormal (-1, 0) } ]

/-- The assembled 6x6 stiffness matrix of the unit right triangle. -/
noncomputable def triangleK : Matrix (Fin 6) (Fin 6) ℝ :=
  fun r c => stiffness_matrix triangleEdges r.val c.val

/-- A star mesh with interior vertex 0 joined to boundary vertices 1-4:
every edge incident to vertex 0 is interior.  Lengths 1 and angles 0 are
arbitrary concrete facet data. -/
noncomputable def starEdges : List SEdge :=
  [ { i := 0, j := 1, isBoundary := false, length := 1, angle := 0 },
    { i := 0, j := 2, isBoundary := false, length := 1, angle := 0 },
    { i := 0, j := 3, isBoundary := false, length := 1, angle := 0 },
    { i := 0, j := 4, isBoundary := false, length := 1, angle := 0 },
    { i := 1, j := 2, isBoundary := true, length := 1, angle := 0 },
    { i := 2, j := 3, isBoundary := true, length := 1, angle := 0 },
    { i := 3, j := 4, isBoundary := true, length := 1, angle := 0 },
    { i := 4, j := 1, isBoundary := true, length := 1, angle := 0 } ]

/-! ## Spring mover: `SpringMover_Base.apply_dirichlet_conditions`
(spring.py lines 170-218) -/

structure SpringEdge where
  i : ℕ
  j : ℕ
  tag : Option ℕ
deriving DecidableEq

/-- One supplied Dirichlet condition: the identity of its function space,
its boundary tags (`sub_domain`), and the boundary value's vertex
coordinates (`boundary_value.dat.data`). -/
structure SpringBC where
  space : ℕ
  tags : List ℕ
  data : ℕ → ℚ × ℚ

structure SpringMeshData where
  coord_space : ℕ
  markers : List ℕ
  edges : List SpringEdge

inductive SpringError where
  | wrongSpace
  | invalidTags (tags : List ℕ)
deriving DecidableEq

/-- Does `bnd.point2facetnumber[e]` lie in the subsets gathered for the
condition's tags? -/
def edgeMatches (bc : SpringBC) (e : SpringEdge) : Bool :=
  match e.tag with
  | some t => decide (t ∈ bc.tags)
  | none => false

/-- The four `self.displacement[...] = boundary_data[...]` assignments for
one matching boundary edge (spring.py lines 215-218). -/
def overwriteEdge (bc : SpringBC) (e : SpringEdge) (d : ℕ → ℚ) : ℕ → ℚ :=
  fun n =>
    if n = 2 * e.i then (bc.data e.i).1
    else if n = 2 * e.i + 1 then (bc.data e.i).2
    else if n = 2 * e.j then (bc.data e.j).1
    else if n = 2 * e.j + 1 then (bc.data e.j).2
    else d n

/-- The edge loop of `apply_dirichlet_conditions` for one condition
(spring.py lines 212-218). -/
def apply_bc_edges (bc : SpringBC) : List SpringEdge → (ℕ → ℚ) → (ℕ → ℚ)
  | [], d => d
  | e :: rest, d =>
      apply_bc_edges bc rest (if edgeMatches bc e then overwriteEdge bc e d else d)

/-- The condition loop (spring.py lines 187-218): the function-space check,
the tag-subset check (the raised message names the condition's tag list),
then the per-edge overwrites. -/
def apply_dirichlet_go (mesh : SpringMeshData) :
    List SpringBC → (ℕ → ℚ) → Except SpringError (ℕ → ℚ)
  | [], d => Except.ok d
  | bc :: rest, d =>
      if bc.space ≠ mesh.coord_space then Except.error SpringError.wrongSpace
      else if ¬ (∀ t ∈ bc.tags, t ∈ mesh.markers) then
        Except.error (SpringError.invalidTags bc.tags)
      else apply_dirichlet_go mesh rest (apply_bc_edges bc mesh.edges d)

/-- `apply_dirichlet_conditions` (spring.py lines 171-218): an absent
condition list defaults to zero displacement on the entire boundary. -/
def apply_dirichlet_conditions (mesh : SpringMeshData) (bcs : List SpringBC)
    (d : ℕ → ℚ) : Except SpringError (ℕ → ℚ) :=
  apply_dirichlet_go mesh
    (if bcs.isEmpty then
      [{ space := mesh.coord_space, tags := mesh.markers, data := fun _ => (0, 0) }]
    else bcs) d

/-- Vertex `v` is an endpoint of some boundary edge matched by the
condition. -/
def vertexConstrained (bc : SpringBC) (edges : List SpringEdge) (v : ℕ) : Prop :=
  ∃ e ∈ edges, edgeMatches bc e = true ∧ (e.i = v ∨ e.j = v)

instance (bc : SpringBC) (edges : List SpringEdge) (v : ℕ) :
    Decidable (vertexConstrained bc edges v) :=
  List.decidableBEx _ edges

/-- Concrete unit-triangle mesh for the Dirichlet-condition witness. -/
def triBCMesh : SpringMeshData where
  coord_space := 0
  markers := [1, 2, 3]
  edges := [ { i := 0, j := 1, tag := some 1 },
    { i := 1, j := 2, tag := some 2 },
    { i := 0, j := 2, tag := some 3 } ]

/-- Concrete boundary condition fixing the tag-1 edge. -/
def witnessBC : SpringBC where
  space := 0
  tags := [1]
  data := fun v => ((v : ℚ) + 10, (v : ℚ) + 20)

/-! ### Lemmas about the relaxation loop -/

/-- At `i = 0` the incoming `initial_norm` is irrelevant: the loop overwrites
it with the iteration-0 residual before any use. -/
theorem moveAux_init_irrelevant [Add V] (M : MAModel S V) (rtol dtol : ℚ)
    (maxiter fuel : ℕ) (a b : ℚ) (s : S) (gp : V) :
    moveAux M rtol dtol maxiter fuel 0 a s gp =
      moveAux M rtol dtol maxiter fuel 0 b s gp := by
  cases fuel <;> simp [moveAux]

/-- Outcome indices produced by the loop are at least the starting index. -/
theorem moveAux_diverged_idx_ge [Add V] (M : MAModel S V) (rtol dtol : ℚ)
    (maxiter : ℕ) :
    ∀ fuel i init0 s gp k s' c,
      moveAux M rtol dtol maxiter fuel i init0 s gp =
        MoveOutcome.diverged k s' c → i ≤ k := by
  intro fuel
  induction fuel with
  | zero => intro i init0 s gp k s' c h; simp [moveAux] at h
  | succ n ih =>
      intro i init0 s gp k s' c h
      rw [moveAux] at h
      split_ifs at h
      all_goals first
        | (cases h; exact le_rfl)
        | (cases h)
        | exact le_trans (Nat.le_succ i) (ih _ _ _ _ _ _ _ h)

/-- Any `raise` site of the loop (Diverged or FailedToConverge) fires after
the coordinates have been restored to `xi` (line 370), so the outcome
carries exactly `xi`. -/
theorem moveAux_raise_coords [Add V] (M : MAModel S V) (rtol dtol : ℚ)
    (maxiter : ℕ) :
    ∀ fuel i init0 s gp k s' c,
      (moveAux M rtol dtol maxiter fuel i init0 s gp =
          MoveOutcome.diverged k s' c → c = M.xi) ∧
      (moveAux M rtol dtol maxiter fuel i init0 s gp =
          MoveOutcome.failedToConverge k s' c → c = M.xi) := by
  intro fuel
  induction fuel with
  | zero =>
      intro i init0 s gp k s' c
      constructor <;> (intro h; simp [moveAux] at h)
  | succ n ih =>
      intro i init0 s gp k s' c
      constructor <;>
        · intro h
          rw [moveAux] at h
          split_ifs at h
          all_goals first
            | (cases h; rfl)
            | (cases h)
            | exact (ih _ _ _ _ _ _ _).1 h
            | exact (ih _ _ _ _ _ _ _).2 h

/-- A `converged` outcome carries the committed coordinates
`xi + grad s'` where `s'` is the state at the break. -/
theorem moveAux_converged_coords [Add V] (M : MAModel S V) (rtol dtol : ℚ)
    (maxiter : ℕ) :
    ∀ fuel i init0 s gp k s' c,
      moveAux M rtol dtol maxiter fuel i init0 s gp =
        MoveOutcome.converged k s' c → c = M.xi + M.grad s' := by
  intro fuel
  induction fuel with
  | zero => intro i init0 s gp k s' c h; simp [moveAux] at h
  | succ n ih =>
      intro i init0 s gp k s' c h
      rw [moveAux] at h
      split_ifs at h
      all_goals first
        | (cases h; rfl)
        | (cases h)
        | exact ih _ _ _ _ _ _ _ h

/-- If no convergence test triggered before iteration `k`, the loop reaches
iteration `k` with state `update^[k] s0` and `initial_norm = resSeq 0`. -/
theorem move_reaches [Add V] (M : MAModel S V) (rtol dtol : ℚ)
    (maxiter : ℕ) (s0 : S) (k : ℕ) (hk : k < maxiter)
    (hbefore : ∀ j < k, rtol ≤ resSeq M s0 j ∧
      resSeq M s0 j ≤ dtol * resSeq M s0 0) :
    ∃ gp, move M rtol dtol maxiter s0 =
      moveAux M rtol dtol maxiter (maxiter - k) k (resSeq M s0 0)
        (M.update^[k] s0) gp := by
  induction k with
  | zero =>
      refine ⟨M.gradPhi0, ?_⟩
      rw [move, Nat.sub_zero]
      simpa using moveAux_init_irrelevant M rtol dtol maxiter maxiter 0
        (resSeq M s0 0) s0 M.gradPhi0
  | succ k ih =>
      have hk' : k < maxiter := Nat.lt_of_succ_lt hk
      obtain ⟨gp, hgp⟩ := ih hk' (fun j hj => hbefore j (Nat.lt_succ_of_lt hj))
      obtain ⟨m, hm⟩ : ∃ m, maxiter - k = m + 1 :=
        ⟨maxiter - k - 1, by omega⟩
      have hcur := hbefore k (Nat.lt_succ_self k)
      refine ⟨M.grad (M.update^[k] s0), ?_⟩
      have hinit : (if k = 0 then M.residual (M.update^[k] s0)
          else resSeq M s0 0) = resSeq M s0 0 := by
        split
        · subst_vars; rfl
        · rfl
      rw [hgp, hm, moveAux, hinit]
      have h1 : ¬ M.residual (M.update^[k] s0) < rtol := not_lt.mpr hcur.1
      have h2 : ¬ dtol * resSeq M s0 0 < M.residual (M.update^[k] s0) :=
        not_lt.mpr hcur.2
      rw [if_neg h1, if_neg h2, if_neg (by omega : ¬ k = maxiter - 1)]
      have hfuel : m = maxiter - (k + 1) := by omega
      rw [hfuel, ← Function.iterate_succ_apply' M.update k s0]

/-! ### Claim theorems: Monge-Ampère relaxation loop -/

/-- Claim C1: in `MongeAmpereMover_Relaxation.move` the per-iteration
convergence tests run in source order once iteration `k` is reached
(no earlier iteration triggered a test): residual below `rtol` succeeds
and stops; otherwise residual above `dtol` times the iteration-0 residual
fails as Diverged; otherwise `k = maxiter - 1` fails as FailedToConverge;
only if none of these holds does the loop proceed to the pseudo-time and
Hessian updates (`update`) and the next iteration. -/
theorem C1_convergence_test_order [Add V] (M : MAModel S V) (rtol dtol : ℚ)
    (maxiter : ℕ) (s0 : S) (k : ℕ) (hk : k < maxiter)
    (hbefore : ∀ j < k, rtol ≤ resSeq M s0 j ∧
      resSeq M s0 j ≤ dtol * resSeq M s0 0) :
    (resSeq M s0 k < rtol →
      move M rtol dtol maxiter s0 =
        MoveOutcome.converged k (M.update^[k] s0)
          (M.xi + M.grad (M.update^[k] s0))) ∧
    (rtol ≤ resSeq M s0 k → dtol * resSeq M s0 0 < resSeq M s0 k →
      move M rtol dtol maxiter s0 =
        MoveOutcome.diverged k (M.update^[k] s0) M.xi) ∧
    (rtol ≤ resSeq M s0 k → resSeq M s0 k ≤ dtol * resSeq M s0 0 →
      k = maxiter - 1 →
      move M rtol dtol maxiter s0 =
        MoveOutcome.failedToConverge k (M.update^[k] s0) M.xi) ∧
    (rtol ≤ resSeq M s0 k → resSeq M s0 k ≤ dtol * resSeq M s0 0 →
      k ≠ maxiter - 1 →
      ∃ gp, move M rtol dtol maxiter s0 =
        moveAux M rtol dtol maxiter (maxiter - (k + 1)) (k + 1)
          (resSeq M s0 0) (M.update (M.update^[k] s0)) gp) := by
  obtain ⟨gp, hgp⟩ := move_reaches M rtol dtol maxiter s0 k hk hbefore
  obtain ⟨m, hm⟩ : ∃ m, maxiter - k = m + 1 := ⟨maxiter - k - 1, by omega⟩
  have hinit : (if k = 0 then M.residual (M.update^[k] s0)
      else resSeq M s0 0) = resSeq M s0 0 := by
    split
    · subst_vars; rfl
    · rfl
  rw [hgp, hm, moveAux, hinit]
  refine ⟨?_, ?_, ?_, ?_⟩
  · intro h
    have h' : M.residual (M.update^[k] s0) < rtol := h
    rw [if_pos h']
  · intro h1 h2
    have h1' : ¬ M.residual (M.update^[k] s0) < rtol := not_lt.mpr h1
    have h2' : dtol * resSeq M s0 0 < M.residual (M.update^[k] s0) := h2
    rw [if_neg h1', if_pos h2']
  · intro h1 h2 h3
    have h1' : ¬ M.residual (M.update^[k] s0) < rtol := not_lt.mpr h1
    have h2' : ¬ dtol * resSeq M s0 0 < M.residual (M.update^[k] s0) :=
      not_lt.mpr h2
    rw [if_neg h1', if_neg h2', if_pos h3]
  · intro h1 h2 h3
    have h1' : ¬ M.residual (M.update^[k] s0) < rtol := not_lt.mpr h1
    have h2' : ¬ dtol * resSeq M s0 0 < M.residual (M.update^[k] s0) :=
      not_lt.mpr h2
    rw [if_neg h1', if_neg h2', if_neg h3]
    exact ⟨M.grad (M.update^[k] s0), by rw [show m = maxiter - (k + 1) by omega]⟩

/-- The residual observed by iteration 0 of the concrete run. -/
theorem exampleResSeq_facts :
    resSeq exampleModel 1 0 = 1 ∧ resSeq exampleModel 1 1 = 3 := by
  constructor <;> norm_num [resSeq, exampleModel]

/-- In the concrete run with `rtol = 1`, `dtol = 2`, `maxiter = 2`,
iteration 0 passes every test (residual 1) and iteration 1 diverges
(residual 3 > 2 * 1); the raise carries the reference coordinates 5. -/
theorem exampleRun_diverged :
    move exampleModel 1 2 2 1 = MoveOutcome.diverged 1 3 5 := by
  have hb : ∀ j < 1, (1 : ℚ) ≤ resSeq exampleModel 1 j ∧
      resSeq exampleModel 1 j ≤ 2 * resSeq exampleModel 1 0 := by
    intro j hj
    interval_cases j
    norm_num [resSeq, exampleModel]
  obtain ⟨gp, hgp⟩ := move_reaches exampleModel 1 2 2 1 1 (by omega) hb
  rw [hgp, show (2 : ℕ) - 1 = 0 + 1 from rfl, moveAux]
  have h1 : ¬ exampleModel.residual (exampleModel.update^[1] 1) < 1 := by
    norm_num [exampleModel]
  have hne : ¬ (1 : ℕ) = 0 := by omega
  rw [if_neg h1, if_neg hne]
  have h2 : 2 * resSeq exampleModel 1 0 <
      exampleModel.residual (exampleModel.update^[1] 1) := by
    norm_num [resSeq, exampleModel]
  rw [if_pos h2]
  have e1 : exampleModel.update^[1] (1 : ℚ) = 3 := by norm_num [exampleModel]
  rw [e1]
  rfl

/-- In the concrete run with `rtol = 2` the first residual test passes at
once: the loop body executed once, the returned index is 0, and the mesh
coordinates are committed to `xi + grad phi = 6`. -/
theorem exampleRun_converged :
    move exampleModel 2 2 2 1 = MoveOutcome.converged 0 1 6 := by
  obtain ⟨gp, hgp⟩ := move_reaches exampleModel 2 2 2 1 0 (by omega)
    (by intro j hj; exact absurd hj (Nat.not_lt_zero j))
  rw [hgp, show (2 : ℕ) - 0 = 1 + 1 from rfl, moveAux]
  have h1 : exampleModel.residual (exampleModel.update^[0] 1) < 2 := by
    norm_num [exampleModel]
  rw [if_pos h1]
  norm_num [exampleModel]

/-- Witness for C1 at a concrete diverging run: from `s0 = 1` with
`rtol = 1`, `dtol = 2`, `maxiter = 2` the residuals are 1 then 3,
iteration 0 passes every test and iteration 1 diverges (3 > 2 * 1). -/
theorem C1_witness :
    (1 : ℕ) < 2 ∧
    (∀ j < 1, (1 : ℚ) ≤ resSeq exampleModel 1 j ∧
      resSeq exampleModel 1 j ≤ 2 * resSeq exampleModel 1 0) ∧
    (1 : ℚ) ≤ resSeq exampleModel 1 1 ∧
    2 * resSeq exampleModel 1 0 < resSeq exampleModel 1 1 ∧
    move exampleModel 1 2 2 1 = MoveOutcome.diverged 1 3 5 := by
  have hb : ∀ j < 1, (1 : ℚ) ≤ resSeq exampleModel 1 j ∧
      resSeq exampleModel 1 j ≤ 2 * resSeq exampleModel 1 0 := by
    intro j hj
    interval_cases j
    norm_num [resSeq, exampleModel]
  refine ⟨by omega, hb, by norm_num [resSeq, exampleModel],
    by norm_num [resSeq, exampleModel], ?_⟩
  have h := (C1_convergence_test_order exampleModel 1 2 2 1 1
    (by omega) hb).2.1 (by norm_num [resSeq, exampleModel])
    (by norm_num [resSeq, exampleModel])
  have e1 : exampleModel.update^[1] (1 : ℚ) = 3 := by norm_num [exampleModel]
  have e2 : exampleModel.xi = 5 := rfl
  rw [e1, e2] at h
  exact h

/-- Claim C2 counterexample.  First run (diverging): the mover raises
Diverged with the mesh coordinates equal to `xi = 5`, not the committed
value `xi + grad phi = 8`, because the `raise` skips line 400.  Second run
(converging at the first residual test): the loop body executed once, yet
the returned index is 0 - the code's own message would report
`Converged in 1 iterations`. -/
theorem C2_counterexample :
    move exampleModel 1 2 2 1 = MoveOutcome.diverged 1 3 5 ∧
    (5 : ℚ) ≠ exampleModel.xi + exampleModel.grad 3 ∧
    move exampleModel 2 2 2 1 = MoveOutcome.converged 0 1 6 ∧
    (0 : ℕ) ≠ 0 + 1 := by
  refine ⟨exampleRun_diverged, ?_, exampleRun_converged, by omega⟩
  norm_num [exampleModel]

/-- Claim C2 (amended): on success `move` commits the mesh coordinates to
`xi + grad phi` before returning and returns the 0-based loop index of the
converging iteration (one less than the number of loop-body executions);
on Diverged or FailedToConverge the exception propagates before any
commit, leaving the mesh coordinates at the reference coordinates `xi`. -/
theorem C2_commit_and_return [Add V] (M : MAModel S V) (rtol dtol : ℚ)
    (maxiter : ℕ) (s0 : S) :
    (∀ k s c, move M rtol dtol maxiter s0 = MoveOutcome.converged k s c →
      c = M.xi + M.grad s) ∧
    (∀ k s c, move M rtol dtol maxiter s0 = MoveOutcome.diverged k s c →
      c = M.xi) ∧
    (∀ k s c,
      move M rtol dtol maxiter s0 = MoveOutcome.failedToConverge k s c →
      c = M.xi) ∧
    (∀ k, k < maxiter →
      (∀ j < k, rtol ≤ resSeq M s0 j ∧ resSeq M s0 j ≤ dtol * resSeq M s0 0) →
      resSeq M s0 k < rtol →
      move M rtol dtol maxiter s0 =
        MoveOutcome.converged k (M.update^[k] s0)
          (M.xi + M.grad (M.update^[k] s0))) := by
  refine ⟨?_, ?_, ?_, ?_⟩
  · intro k s c h
    exact moveAux_converged_coords M rtol dtol maxiter maxiter 0 0 s0
      M.gradPhi0 k s c h
  · intro k s c h
    exact (moveAux_raise_coords M rtol dtol maxiter maxiter 0 0 s0
      M.gradPhi0 k s c).1 h
  · intro k s c h
    exact (moveAux_raise_coords M rtol dtol maxiter maxiter 0 0 s0
      M.gradPhi0 k s c).2 h
  · intro k hk hbefore hres
    obtain ⟨gp, hgp⟩ := move_reaches M rtol dtol maxiter s0 k hk hbefore
    obtain ⟨m, hm⟩ : ∃ m, maxiter - k = m + 1 := ⟨maxiter - k - 1, by omega⟩
    rw [hgp, hm, moveAux]
    have h' : M.residual (M.update^[k] s0) < rtol := hres
    rw [if_pos h']

/-- Witness for the amended C2, applied at the two concrete runs of the
counterexample: the converging run commits `xi + grad phi = 6`, the
diverging run leaves the coordinates at `xi = 5`. -/
theorem C2_witness :
    (6 : ℚ) = exampleModel.xi + exampleModel.grad 1 ∧
    (5 : ℚ) = exampleModel.xi := by
  constructor
  · exact (C2_commit_and_return exampleModel 2 2 2 1).1 0 1 6
      exampleRun_converged
  · exact (C2_commit_and_return exampleModel 1 2 2 1).2.1 1 3 5
      exampleRun_diverged

/-- Claim C9: whenever `move` raises a ConvergenceError (Diverged or
FailedToConverge), the mesh coordinates at the raise equal the reference
coordinates `xi`: the trial assignment to `xi + grad phi` made earlier in
the same iteration was rolled back (line 370) before the convergence
checks ran. -/
theorem C9_raise_leaves_reference_coords [Add V] (M : MAModel S V)
    (rtol dtol : ℚ) (maxiter : ℕ) (s0 : S) (k : ℕ) (s : S) (c : V) :
    (move M rtol dtol maxiter s0 = MoveOutcome.diverged k s c → c = M.xi) ∧
    (move M rtol dtol maxiter s0 = MoveOutcome.failedToConverge k s c →
      c = M.xi) :=
  moveAux_raise_coords M rtol dtol maxiter maxiter 0 0 s0 M.gradPhi0 k s c

/-- Witness for C9 at the concrete diverging run: the raise happens with
coordinates `5 = xi`. -/
theorem C9_witness :
    move exampleModel 1 2 2 1 = MoveOutcome.diverged 1 3 5 ∧
    (5 : ℚ) = exampleModel.xi := by
  refine ⟨exampleRun_diverged, ?_⟩
  exact (C9_raise_leaves_reference_coords exampleModel 1 2 2 1
    1 3 5).1 exampleRun_diverged

/-- Claim C10: for `dtol ≥ 1` and a nonnegative iteration-0 residual,
`move` can never raise Diverged on the first iteration, because the
initial norm used in the divergence comparison is the iteration-0 residual
itself, making `residual > dtol * initial_norm` unsatisfiable there. -/
theorem C10_no_divergence_on_first_iteration [Add V] (M : MAModel S V)
    (rtol dtol : ℚ) (maxiter : ℕ) (s0 : S)
    (hdtol : 1 ≤ dtol) (hres : 0 ≤ M.residual s0) :
    ∀ s c, move M rtol dtol maxiter s0 ≠ MoveOutcome.diverged 0 s c := by
  intro s c h
  cases maxiter with
  | zero => simp [move, moveAux] at h
  | succ m =>
      rw [move, moveAux] at h
      rw [if_pos rfl] at h
      by_cases h1 : M.residual s0 < rtol
      · rw [if_pos h1] at h; cases h
      · rw [if_neg h1] at h
        have hle : M.residual s0 ≤ dtol * M.residual s0 :=
          le_mul_of_one_le_left hres hdtol
        rw [if_neg (not_lt.mpr hle)] at h
        by_cases h3 : (0 : ℕ) = (m + 1) - 1
        · rw [if_pos h3] at h; cases h
        · rw [if_neg h3] at h
          have := moveAux_diverged_idx_ge M rtol dtol (m + 1) m (0 + 1)
            (M.residual s0) (M.update s0) (M.grad s0) 0 s c h
          omega

/-- Witness for C10: with `dtol = 2` and iteration-0 residual 1 the
concrete run does not produce a first-iteration Diverged outcome. -/
theorem C10_witness :
    (1 : ℚ) ≤ 2 ∧ (0 : ℚ) ≤ exampleModel.residual 1 ∧
    move exampleModel 1 2 2 1 ≠ MoveOutcome.diverged 0 3 5 := by
  refine ⟨by norm_num, by norm_num [exampleModel], ?_⟩
  exact C10_no_divergence_on_first_iteration exampleModel 1 2 2 1
    (by norm_num) (by norm_num [exampleModel]) 3 5

/-! ### Claim theorems: initial guess and L2 projector boundary handling -/

/-- Claim C6: supplying exactly one of the two initial-guess fields raises
ConfigurationError at construction (both in `apply_initial_guess` itself
and through the construction path); supplying both assigns all four
solution fields; supplying neither is accepted and leaves the state
unchanged. -/
theorem C6_initial_guess_pairing {P T : Type} [Zero P] [Zero T]
    (p : P) (q : T) (pi : Option P) (si : Option T)
    (st : InitGuessState P T) :
    apply_initial_guess (some p) (some q) st =
      Except.ok { phi := p, sigma := q, phi_old := p, sigma_old := q } ∧
    apply_initial_guess (some p) (none : Option T) st =
      Except.error InitError.needBothPhiAndSigma ∧
    apply_initial_guess (none : Option P) (some q) st =
      Except.error InitError.needBothPhiAndSigma ∧
    apply_initial_guess (none : Option P) (none : Option T) st =
      Except.ok st ∧
    ((∃ e, apply_initial_guess pi si st = Except.error e) ↔
      pi.isSome ≠ si.isSome) ∧
    ((∃ e, (relaxation_construct pi si :
        Except InitError (InitGuessState P T)) = Except.error e) ↔
      pi.isSome ≠ si.isSome) := by
  refine ⟨rfl, rfl, rfl, rfl, ?_, ?_⟩ <;>
    cases pi <;> cases si <;>
      simp [apply_initial_guess, relaxation_construct] <;>
        exact ⟨InitError.needBothPhiAndSigma, trivial⟩

/-- Claim C5: with `fix_boundary_nodes = False`, building the
gradient-recovery boundary conditions for a mesh of dimension other than 2
signals `NotImplementedError` (the spec's UnsupportedOperation) whenever
the boundary segments have non-vanishing integrated |normal| components
(every real segment does, axis-aligned ones included); in two dimensions
an axis-aligned segment is handled by constraining only the normal
component to zero (component 1 when the x-component of the integrated
normal vanishes, component 0 when the y-component vanishes). -/
theorem C5_projector_2d_only (allTags : List ℕ) (t : ℕ) (a b : ℚ) :
    (∀ (dim : ℕ) (segs : List BoundarySegment), dim ≠ 2 → segs ≠ [] →
      (∀ seg ∈ segs, ¬ (∀ q ∈ seg.nInt, q = 0)) →
      l2_projector_bcs dim false segs =
        Except.error ProjError.notImplemented) ∧
    (b ≠ 0 →
      segment_bcs 2 false allTags { tag := t, nInt := [0, b] } =
        Except.ok [ProjBC.dirichletComponent 1 t]) ∧
    (a ≠ 0 →
      segment_bcs 2 false allTags { tag := t, nInt := [a, 0] } =
        Except.ok [ProjBC.dirichletComponent 0 t]) := by
  refine ⟨?_, ?_, ?_⟩
  · intro dim segs hdim hne hseg
    cases segs with
    | nil => exact absurd rfl hne
    | cons seg rest =>
        have hsz := hseg seg (List.mem_cons_self seg rest)
        have h1 : ∀ ts, segment_bcs dim false ts seg =
            Except.error ProjError.notImplemented := by
          intro ts
          simp [segment_bcs, hsz, hdim]
        simp [l2_projector_bcs, projector_bcs_list, h1]
  · intro hb
    simp [segment_bcs, hb]
  · intro ha
    simp [segment_bcs, ha]

/-- Witness for C5: a 3-D mesh with one boundary segment whose integrated
|normal| is (1,1,1) signals NotImplementedError; in 2-D the x-aligned
segment with integrated |normal| (0,1) gets only its y-component (the
normal component) constrained. -/
theorem C5_witness :
    (3 : ℕ) ≠ 2 ∧
    ([{ tag := 1, nInt := [1, 1, 1] }] : List BoundarySegment) ≠ [] ∧
    (∀ seg ∈ ([{ tag := 1, nInt := [1, 1, 1] }] : List BoundarySegment),
      ¬ (∀ q ∈ seg.nInt, q = 0)) ∧
    l2_projector_bcs 3 false [{ tag := 1, nInt := [1, 1, 1] }] =
      Except.error ProjError.notImplemented ∧
    segment_bcs 2 false [1] { tag := 1, nInt := [0, 1] } =
      Except.ok [ProjBC.dirichletComponent 1 1] := by
  have hs : ∀ seg ∈ ([{ tag := 1, nInt := [1, 1, 1] }] : List BoundarySegment),
      ¬ (∀ q ∈ seg.nInt, q = 0) := by
    intro seg hseg
    simp only [List.mem_singleton] at hseg
    subst hseg
    simp
  refine ⟨by omega, by simp, hs, ?_, ?_⟩
  · exact (C5_projector_2d_only [1] 1 1 1).1 3 _ (by omega) (by simp) hs
  · exact (C5_projector_2d_only [1] 1 1 1).2.1 (by norm_num)

/-! ### Claim theorems: spring mover angle clamping and Dirichlet
conditions -/

/-- Claim C8: the `angles` post-processing clamps each projected cosine
into [-1, 1] before `arccos`, so `arccos` never receives an out-of-domain
argument, and every returned edge angle lies in [0, pi]. -/
theorem C8_arccos_clamped (v : ℝ) :
    -1 ≤ clamp v ∧ clamp v ≤ 1 ∧
    0 ≤ edge_angle v ∧ edge_angle v ≤ Real.pi := by
  refine ⟨le_max_right _ _, ?_, Real.arccos_nonneg _, Real.arccos_le_pi _⟩
  exact max_le (min_le_right _ _) (by norm_num)

/-- The per-edge overwrite hits exactly the two degrees of freedom of each
endpoint, writing that endpoint's boundary data. -/
theorem overwriteEdge_at (bc : SpringBC) (e : SpringEdge) (d : ℕ → ℚ)
    (v : ℕ) (hv : e.i = v ∨ e.j = v) :
    overwriteEdge bc e d (2 * v) = (bc.data v).1 ∧
    overwriteEdge bc e d (2 * v + 1) = (bc.data v).2 := by
  constructor
  · unfold overwriteEdge
    split_ifs with h1 h2 h3 h4
    · have h : e.i = v := by omega
      rw [h]
    · exact absurd h2 (by omega)
    · have h : e.j = v := by omega
      rw [h]
    · exact absurd h4 (by omega)
    · exact absurd hv (by omega)
  · unfold overwriteEdge
    split_ifs with h1 h2 h3 h4
    · exact absurd h1 (by omega)
    · have h : e.i = v := by omega
      rw [h]
    · exact absurd h3 (by omega)
    · have h : e.j = v := by omega
      rw [h]
    · exact absurd hv (by omega)

/-- The per-edge overwrite leaves every other displacement entry alone. -/
theorem overwriteEdge_away (bc : SpringBC) (e : SpringEdge) (d : ℕ → ℚ)
    (n : ℕ) (h1 : n ≠ 2 * e.i) (h2 : n ≠ 2 * e.i + 1) (h3 : n ≠ 2 * e.j)
    (h4 : n ≠ 2 * e.j + 1) : overwriteEdge bc e d n = d n := by
  unfold overwriteEdge
  rw [if_neg h1, if_neg h2, if_neg h3, if_neg h4]

theorem vertexConstrained_cons (bc : SpringBC) (e : SpringEdge)
    (rest : List SpringEdge) (v : ℕ) :
    vertexConstrained bc (e :: rest) v ↔
      (edgeMatches bc e = true ∧ (e.i = v ∨ e.j = v)) ∨
        vertexConstrained bc rest v := by
  constructor
  · rintro ⟨e', he', hm, hv⟩
    rcases List.mem_cons.mp he' with rfl | hmem
    · exact Or.inl ⟨hm, hv⟩
    · exact Or.inr ⟨e', hmem, hm, hv⟩
  · rintro (⟨hm, hv⟩ | ⟨e', hmem, hm, hv⟩)
    · exact ⟨e, List.mem_cons_self e rest, hm, hv⟩
    · exact ⟨e', List.mem_cons_of_mem e hmem, hm, hv⟩

/-- Effect of the edge loop on the displacement entries of a vertex:
endpoints of matching boundary edges receive the boundary data, all other
vertices keep their previous displacement. -/
theorem apply_bc_edges_at (bc : SpringBC) :
    ∀ (edges : List SpringEdge) (d : ℕ → ℚ) (v : ℕ),
      (vertexConstrained bc edges v →
        apply_bc_edges bc edges d (2 * v) = (bc.data v).1 ∧
        apply_bc_edges bc edges d (2 * v + 1) = (bc.data v).2) ∧
      (¬ vertexConstrained bc edges v →
        apply_bc_edges bc edges d (2 * v) = d (2 * v) ∧
        apply_bc_edges bc edges d (2 * v + 1) = d (2 * v + 1)) := by
  intro edges
  induction edges with
  | nil =>
      intro d v
      refine ⟨?_, fun _ => ⟨rfl, rfl⟩⟩
      rintro ⟨e, he, _⟩
      exact absurd he (List.not_mem_nil e)
  | cons e rest ih =>
      intro d v
      by_cases hm : edgeMatches bc e = true
      · by_cases hv : e.i = v ∨ e.j = v
        · have hde := overwriteEdge_at bc e d v hv
          constructor
          · intro _
            rw [apply_bc_edges, if_pos hm]
            by_cases hrest : vertexConstrained bc rest v
            · exact (ih (overwriteEdge bc e d) v).1 hrest
            · have h2 := (ih (overwriteEdge bc e d) v).2 hrest
              rw [h2.1, h2.2, hde.1, hde.2]
              exact ⟨rfl, rfl⟩
          · intro hnc
            exact absurd ((vertexConstrained_cons bc e rest v).mpr
              (Or.inl ⟨hm, hv⟩)) hnc
        · have hv1 : e.i ≠ v := fun h => hv (Or.inl h)
          have hv2 : e.j ≠ v := fun h => hv (Or.inr h)
          have ha : overwriteEdge bc e d (2 * v) = d (2 * v) :=
            overwriteEdge_away bc e d _ (by omega) (by omega) (by omega)
              (by omega)
          have hb : overwriteEdge bc e d (2 * v + 1) = d (2 * v + 1) :=
            overwriteEdge_away bc e d _ (by omega) (by omega) (by omega)
              (by omega)
          constructor
          · intro hc
            have hrest : vertexConstrained bc rest v := by
              rcases (vertexConstrained_cons bc e rest v).mp hc with
                ⟨_, hv'⟩ | h
              · exact absurd hv' hv
              · exact h
            rw [apply_bc_edges, if_pos hm]
            exact (ih (overwriteEdge bc e d) v).1 hrest
          · intro hnc
            have hrest : ¬ vertexConstrained bc rest v := fun h =>
              hnc ((vertexConstrained_cons bc e rest v).mpr (Or.inr h))
            rw [apply_bc_edges, if_pos hm]
            have h2 := (ih (overwriteEdge bc e d) v).2 hrest
            rw [h2.1, h2.2, ha, hb]
            exact ⟨rfl, rfl⟩
      · rw [apply_bc_edges, if_neg hm]
        constructor
        · intro hc
          have hrest : vertexConstrained bc rest v := by
            rcases (vertexConstrained_cons bc e rest v).mp hc with
              ⟨hm', _⟩ | h
            · exact absurd hm' hm
            · exact h
          exact (ih d v).1 hrest
        · intro hnc
          have hrest : ¬ vertexConstrained bc rest v := fun h =>
            hnc ((vertexConstrained_cons bc e rest v).mpr (Or.inr h))
          exact (ih d v).2 hrest

/-- Any condition in the list with a wrong function space or invalid tags
makes the condition loop raise. -/
theorem apply_dirichlet_go_err (mesh : SpringMeshData) :
    ∀ (bcs : List SpringBC) (d : ℕ → ℚ),
      (∃ b ∈ bcs, b.space ≠ mesh.coord_space ∨
        ¬ (∀ t ∈ b.tags, t ∈ mesh.markers)) →
      ∃ e, apply_dirichlet_go mesh bcs d = Except.error e := by
  intro bcs
  induction bcs with
  | nil =>
      rintro d ⟨b, hb, _⟩
      exact absurd hb (List.not_mem_nil b)
  | cons b rest ih =>
      intro d h
      by_cases h1 : b.space ≠ mesh.coord_space
      · exact ⟨SpringError.wrongSpace, by rw [apply_dirichlet_go, if_pos h1]⟩
      · by_cases h2 : ∀ t ∈ b.tags, t ∈ mesh.markers
        · have hrest : ∃ b' ∈ rest, b'.space ≠ mesh.coord_space ∨
              ¬ (∀ t ∈ b'.tags, t ∈ mesh.markers) := by
            rcases h with ⟨b', hb', hbad⟩
            rcases List.mem_cons.mp hb' with rfl | hmem
            · rcases hbad with hbad | hbad
              · exact absurd hbad h1
              · exact absurd h2 hbad
            · exact ⟨b', hmem, hbad⟩
          obtain ⟨e, he⟩ := ih (apply_bc_edges b mesh.edges d) hrest
          refine ⟨e, ?_⟩
          rw [apply_dirichlet_go, if_neg h1, if_neg (not_not_intro h2)]
          exact he
        · exact ⟨SpringError.invalidTags b.tags,
            by rw [apply_dirichlet_go, if_neg h1, if_pos h2]⟩

/-- Claim C7: a supplied condition whose function space is not the mesh's
coordinate space raises ConfigurationError; a condition whose tags are not
a subset of the mesh's known boundary tags raises ConfigurationError
carrying those tags; any bad condition in the list makes the call raise;
and for a valid condition the displacement entries at the two endpoints of
each matching boundary edge are overwritten with the boundary value's
vertex coordinates, all other entries being left unchanged. -/
theorem C7_dirichlet_conditions (mesh : SpringMeshData) (bc : SpringBC)
    (rest bcs : List SpringBC) (d : ℕ → ℚ) :
    (bc.space ≠ mesh.coord_space →
      apply_dirichlet_conditions mesh (bc :: rest) d =
        Except.error SpringError.wrongSpace) ∧
    (bc.space = mesh.coord_space →
      ¬ (∀ t ∈ bc.tags, t ∈ mesh.markers) →
      apply_dirichlet_conditions mesh (bc :: rest) d =
        Except.error (SpringError.invalidTags bc.tags)) ∧
    ((∃ b ∈ bcs, b.space ≠ mesh.coord_space ∨
        ¬ (∀ t ∈ b.tags, t ∈ mesh.markers)) →
      ∃ e, apply_dirichlet_conditions mesh bcs d = Except.error e) ∧
    (bc.space = mesh.coord_space →
      (∀ t ∈ bc.tags, t ∈ mesh.markers) →
      apply_dirichlet_conditions mesh [bc] d =
        Except.ok (apply_bc_edges bc mesh.edges d) ∧
      (∀ v, (vertexConstrained bc mesh.edges v →
          apply_bc_edges bc mesh.edges d (2 * v) = (bc.data v).1 ∧
          apply_bc_edges bc mesh.edges d (2 * v + 1) = (bc.data v).2) ∧
        (¬ vertexConstrained bc mesh.edges v →
          apply_bc_edges bc mesh.edges d (2 * v) = d (2 * v) ∧
          apply_bc_edges bc mesh.edges d (2 * v + 1) = d (2 * v + 1)))) := by
  refine ⟨?_, ?_, ?_, ?_⟩
  · intro h1
    rw [apply_dirichlet_conditions]
    simp only [List.isEmpty_cons, Bool.false_eq_true, if_false]
    rw [apply_dirichlet_go, if_pos h1]
  · intro hsp htags
    rw [apply_dirichlet_conditions]
    simp only [List.isEmpty_cons, Bool.false_eq_true, if_false]
    rw [apply_dirichlet_go, if_neg (not_not_intro hsp), if_pos htags]
  · intro h
    rcases bcs with _ | ⟨b0, rest0⟩
    · rcases h with ⟨b, hb, _⟩
      exact absurd hb (List.not_mem_nil b)
    · rw [apply_dirichlet_conditions]
      simp only [List.isEmpty_cons, Bool.false_eq_true, if_false]
      exact apply_dirichlet_go_err mesh (b0 :: rest0) d h
  · intro hsp htags
    constructor
    · rw [apply_dirichlet_conditions]
      simp only [List.isEmpty_cons, Bool.false_eq_true, if_false]
      rw [apply_dirichlet_go, if_neg (not_not_intro hsp),
        if_neg (not_not_intro htags), apply_dirichlet_go]
    · intro v
      exact apply_bc_edges_at bc mesh.edges d v

/-- Witness for C7 on the concrete triangle mesh: fixing the tag-1 edge
(endpoints 0 and 1) writes the boundary data at those vertices and leaves
vertex 2 untouched. -/
theorem C7_witness :
    witnessBC.space = triBCMesh.coord_space ∧
    (∀ t ∈ witnessBC.tags, t ∈ triBCMesh.markers) ∧
    apply_dirichlet_conditions triBCMesh [witnessBC] (fun _ => 0) =
      Except.ok (apply_bc_edges witnessBC triBCMesh.edges (fun _ => 0)) ∧
    apply_bc_edges witnessBC triBCMesh.edges (fun _ => 0) 0 = 10 ∧
    apply_bc_edges witnessBC triBCMesh.edges (fun _ => 0) 1 = 20 ∧
    apply_bc_edges witnessBC triBCMesh.edges (fun _ => 0) 4 = 0 := by
  have hsp : witnessBC.space = triBCMesh.coord_space := rfl
  have htags : ∀ t ∈ witnessBC.tags, t ∈ triBCMesh.markers := by
    intro t ht
    simp only [witnessBC, List.mem_singleton] at ht
    subst ht
    simp [triBCMesh]
  have h := (C7_dirichlet_conditions triBCMesh witnessBC [] [witnessBC]
    (fun _ => 0)).2.2.2 hsp htags
  have hc0 : vertexConstrained witnessBC triBCMesh.edges 0 :=
    ⟨{ i := 0, j := 1, tag := some 1 }, by simp [triBCMesh],
      by simp [edgeMatches, witnessBC], Or.inl rfl⟩
  have hn2 : ¬ vertexConstrained witnessBC triBCMesh.edges 2 := by
    rintro ⟨e, he, hm, hv⟩
    simp only [triBCMesh, List.mem_cons, List.not_mem_nil, or_false] at he
    rcases he with rfl | rfl | rfl <;> simp [edgeMatches, witnessBC] at hm hv
  have h0 := (h.2 0).1 hc0
  have h2 := (h.2 2).2 hn2
  refine ⟨hsp, htags, h.1, ?_, ?_, ?_⟩
  · have := h0.1
    norm_num [witnessBC] at this
    exact this
  · have := h0.2
    norm_num [witnessBC] at this
    exact this
  · have := h2.1
    norm_num at this
    exact this

/-! ### Claim theorems: stiffness-matrix assembly -/

/-- Summing one `+=` contribution along a row of the matrix. -/
theorem sum_entry (a b : ℕ) (x : ℝ) (r m : ℕ) :
    (∑ c ∈ Finset.range m, entry a b x r c) =
      if r = a ∧ b < m then x else 0 := by
  unfold entry
  by_cases hr : r = a
  · simp only [hr, eq_self_iff_true, true_and]
    rw [Finset.sum_ite_eq' (Finset.range m) b fun _ => x]
    simp [Finset.mem_range]
  · simp [hr]

theorem entry_zero (a b r c : ℕ) : entry a b 0 r c = 0 := by
  unfold entry
  split_ifs <;> rfl

theorem entry_eq_mul (a b : ℕ) (x : ℝ) (r c : ℕ) :
    entry a b x r c = x * ind01 a b r c := by
  unfold entry ind01
  split_ifs <;> ring

/-- A single edge whose four degrees of freedom either avoid row `r` or
belong to an interior edge contributes zero to the sum of row `r`. -/
theorem edgeK_rowSum (e : SEdge) (N : ℕ) (hi : e.i < N) (hj : e.j < N)
    (r : ℕ)
    (hb : (r = 2 * e.i ∨ r = 2 * e.i + 1 ∨ r = 2 * e.j ∨ r = 2 * e.j + 1) →
      e.isBoundary = false) :
    (∑ c ∈ Finset.range (2 * N), edgeK e r c) = 0 := by
  have hiN : 2 * e.i < 2 * N := by omega
  have hiN1 : 2 * e.i + 1 < 2 * N := by omega
  have hjN : 2 * e.j < 2 * N := by omega
  have hjN1 : 2 * e.j + 1 < 2 * N := by omega
  rcases Bool.eq_false_or_eq_true e.isBoundary with hB | hB
  · have hnot : ¬ (r = 2 * e.i ∨ r = 2 * e.i + 1 ∨ r = 2 * e.j ∨
        r = 2 * e.j + 1) := by
      intro h
      rw [hb h] at hB
      exact Bool.false_ne_true hB
    push_neg at hnot
    obtain ⟨hn1, hn2, hn3, hn4⟩ := hnot
    simp [edgeK, hB, Finset.sum_add_distrib, sum_entry, hn1, hn2, hn3, hn4]
  · simp only [edgeK, hB, Bool.false_eq_true, if_false]
    simp only [Finset.sum_add_distrib, sum_entry, hiN, hiN1, hjN, hjN1,
      and_true]
    split_ifs <;> ring

/-- Row sums of the assembled matrix: every edge whose endpoints either
avoid row `r` or are interior contributes zero. -/
theorem stiffness_rowSum (N r : ℕ) :
    ∀ edges : List SEdge,
      (∀ e ∈ edges, e.i < N ∧ e.j < N) →
      (∀ e ∈ edges,
        (r = 2 * e.i ∨ r = 2 * e.i + 1 ∨ r = 2 * e.j ∨ r = 2 * e.j + 1) →
        e.isBoundary = false) →
      rowSum (stiffness_matrix edges) N r = 0 := by
  intro edges
  induction edges with
  | nil =>
      intro _ _
      simp [rowSum, stiffness_matrix]
  | cons e rest ih =>
      intro hwf hb
      have hsum : ∀ c, stiffness_matrix (e :: rest) r c =
          edgeK e r c + stiffness_matrix rest r c := by
        intro c
        simp [stiffness_matrix]
      unfold rowSum
      rw [Finset.sum_congr rfl fun c _ => hsum c, Finset.sum_add_distrib,
        edgeK_rowSum e N (hwf e (List.mem_cons_self e rest)).1
          (hwf e (List.mem_cons_self e rest)).2 r
          (hb e (List.mem_cons_self e rest))]
      have hrest := ih (fun e' he' => hwf e' (List.mem_cons_of_mem e he'))
        (fun e' he' => hb e' (List.mem_cons_of_mem e he'))
      unfold rowSum at hrest
      rw [hrest, add_zero]

/-- Claim C4: in the stiffness matrix as assembled (before the
boundary-condition overwrite), both rows belonging to a vertex all of
whose incident edges are interior sum to zero (translation invariance). -/
theorem C4_interior_rows_sum_zero (edges : List SEdge) (N v : ℕ)
    (hwf : ∀ e ∈ edges, e.i < N ∧ e.j < N)
    (hint : ∀ e ∈ edges, (e.i = v ∨ e.j = v) → e.isBoundary = false) :
    rowSum (stiffness_matrix edges) N (2 * v) = 0 ∧
    rowSum (stiffness_matrix edges) N (2 * v + 1) = 0 := by
  constructor
  · exact stiffness_rowSum N (2 * v) edges hwf fun e he hr =>
      hint e he (by omega)
  · exact stiffness_rowSum N (2 * v + 1) edges hwf fun e he hr =>
      hint e he (by omega)

/-- Witness for C4 on the concrete star mesh: vertex 0 touches only
interior edges, so its x-row sums to zero. -/
theorem C4_witness :
    (∀ e ∈ starEdges, e.i < 5 ∧ e.j < 5) ∧
    (∀ e ∈ starEdges, (e.i = 0 ∨ e.j = 0) → e.isBoundary = false) ∧
    rowSum (stiffness_matrix starEdges) 5 0 = 0 := by
  have h1 : ∀ e ∈ starEdges, e.i < 5 ∧ e.j < 5 := by
    intro e he
    simp only [starEdges, List.mem_cons, List.not_mem_nil, or_false] at he
    rcases he with rfl | rfl | rfl | rfl | rfl | rfl | rfl | rfl <;> norm_num
  have h2 : ∀ e ∈ starEdges, (e.i = 0 ∨ e.j = 0) → e.isBoundary = false := by
    intro e he
    simp only [starEdges, List.mem_cons, List.not_mem_nil, or_false] at he
    rcases he with rfl | rfl | rfl | rfl | rfl | rfl | rfl | rfl <;> simp
  refine ⟨h1, h2, ?_⟩
  have h := (C4_interior_rows_sum_zero starEdges 5 0 h1 h2).1
  simpa using h

/-! ### Claim theorems: stiffness blocks and the unit triangle -/

theorem blockPlace_apply (u v : ℕ) (B : Fin 2 → Fin 2 → ℝ) (r c : ℕ) :
    blockPlace u v B r c =
      entry (2 * u) (2 * v) (B 0 0) r c +
      entry (2 * u) (2 * v + 1) (B 0 1) r c +
      entry (2 * u + 1) (2 * v) (B 1 0) r c +
      entry (2 * u + 1) (2 * v + 1) (B 1 1) r c := by
  simp only [blockPlace, entry, Fin.sum_univ_two, Fin.val_zero, Fin.val_one,
    add_zero]
  ring

theorem negBlock_apply (B : Fin 2 → Fin 2 → ℝ) (a b : Fin 2) :
    negBlock B a b = -B a b := rfl

theorem springBlock_vals (ang l : ℝ) :
    springBlock ang l 0 0 = Real.cos ang * Real.cos ang / l ∧
    springBlock ang l 0 1 = Real.cos ang * Real.sin ang / l ∧
    springBlock ang l 1 0 = Real.sin ang * Real.cos ang / l ∧
    springBlock ang l 1 1 = Real.sin ang * Real.sin ang / l :=
  ⟨rfl, rfl, rfl, rfl⟩

theorem idBlock_vals :
    idBlock 0 0 = 1 ∧ idBlock 0 1 = 0 ∧ idBlock 1 0 = 0 ∧ idBlock 1 1 = 1 :=
  ⟨rfl, rfl, rfl, rfl⟩

theorem clamp_of_mem (v : ℝ) (h1 : -1 ≤ v) (h2 : v ≤ 1) : clamp v = v := by
  unfold clamp
  rw [min_eq_left h2, max_eq_left h1]

theorem sqrt_two_le_two : Real.sqrt 2 ≤ 2 := by
  calc Real.sqrt 2 ≤ Real.sqrt 4 := Real.sqrt_le_sqrt (by norm_num)
    _ = 2 := by
        rw [show (4 : ℝ) = 2 ^ 2 by norm_num,
          Real.sqrt_sq (by norm_num : (0 : ℝ) ≤ 2)]

/-- Bottom edge of the triangle: tangent (1,0), angle 0. -/
theorem angle_bottom : edgeAngleOfNormal (0, -1) = 0 := by
  have h : (perp ((0 : ℝ), (-1 : ℝ))).1 = 1 := by norm_num [perp]
  rw [edgeAngleOfNormal, h, edge_angle,
    clamp_of_mem 1 (by norm_num) le_rfl, Real.arccos_one]

/-- Left edge of the triangle: tangent (0,-1), angle 90 degrees. -/
theorem angle_left : edgeAngleOfNormal (-1, 0) = Real.pi / 2 := by
  have h : (perp ((-1 : ℝ), (0 : ℝ))).1 = 0 := by norm_num [perp]
  rw [edgeAngleOfNormal, h, edge_angle,
    clamp_of_mem 0 (by norm_num) (by norm_num), Real.arccos_zero]

/-- Hypotenuse of the triangle: tangent (-sqrt 2/2, sqrt 2/2),
angle 135 degrees. -/
theorem angle_hyp :
    edgeAngleOfNormal (Real.sqrt 2 / 2, Real.sqrt 2 / 2) = 3 * Real.pi / 4 := by
  have hnn : (0 : ℝ) ≤ Real.sqrt 2 := Real.sqrt_nonneg 2
  have hle := sqrt_two_le_two
  have h : (perp (Real.sqrt 2 / 2, Real.sqrt 2 / 2)).1 = -(Real.sqrt 2 / 2) :=
    rfl
  rw [edgeAngleOfNormal, h, edge_angle,
    clamp_of_mem (-(Real.sqrt 2 / 2)) (by linarith) (by linarith),
    Real.arccos_neg, ← Real.cos_pi_div_four,
    Real.arccos_cos (by positivity) (by linarith [Real.pi_pos])]
  ring

theorem triangle_lengths :
    triangleEdges.map SEdge.length = [1, Real.sqrt 2, 1] := by
  simp only [triangleEdges, List.map_cons, List.map_nil]
  norm_num [edgeLength, Real.sqrt_one]

theorem triangle_angles :
    triangleEdges.map SEdge.angle = [0, 3 * Real.pi / 4, Real.pi / 2] := by
  simp only [triangleEdges, List.map_cons, List.map_nil]
  rw [angle_bottom, angle_hyp, angle_left]

/-- All three triangle edges are boundary edges, so each vertex receives
1.0 twice on each of its diagonal degrees of freedom: `K = 2 I`. -/
theorem triangleK_eq :
    triangleK = (2 : ℝ) • (1 : Matrix (Fin 6) (Fin 6) ℝ) := by
  funext r c
  fin_cases r <;> fin_cases c <;>
    simp [triangleK, stiffness_matrix, triangleEdges, edgeK, entry,
      Matrix.smul_apply, Matrix.one_apply] <;> norm_num

/-- Claim C3: the stiffness matrix is built per edge from 2x2 blocks: a
boundary edge adds the identity block to the diagonal blocks of both
endpoints; an interior edge with angle `a` and length `l` adds the block
`[[c^2, sc], [sc, s^2]] / l` to both diagonal blocks and its negation to
both off-diagonal blocks.  For the unit right triangle with vertices
(0,0), (1,0), (0,1) the computed edge lengths are 1, sqrt 2, 1 (in edge
order), the edge angles are 0, 135 and 90 degrees, and the assembled
stiffness matrix equals `2 I_6`. -/
theorem C3_stiffness_assembly :
    (∀ e : SEdge, e.isBoundary = true → ∀ r c,
      edgeK e r c =
        blockPlace e.i e.i idBlock r c + blockPlace e.j e.j idBlock r c) ∧
    (∀ e : SEdge, e.isBoundary = false → ∀ r c,
      edgeK e r c =
        blockPlace e.i e.i (springBlock e.angle e.length) r c +
        blockPlace e.i e.j (negBlock (springBlock e.angle e.length)) r c +
        blockPlace e.j e.i (negBlock (springBlock e.angle e.length)) r c +
        blockPlace e.j e.j (springBlock e.angle e.length) r c) ∧
    triangleEdges.map SEdge.length = [1, Real.sqrt 2, 1] ∧
    triangleEdges.map SEdge.angle = [0, 3 * Real.pi / 4, Real.pi / 2] ∧
    triangleK = (2 : ℝ) • (1 : Matrix (Fin 6) (Fin 6) ℝ) := by
  refine ⟨?_, ?_, triangle_lengths, triangle_angles, triangleK_eq⟩
  · intro e hB r c
    rw [edgeK, if_pos hB, blockPlace_apply, blockPlace_apply]
    simp only [idBlock_vals.1, idBlock_vals.2.1, idBlock_vals.2.2.1,
      idBlock_vals.2.2.2, entry_zero, add_zero, zero_add]
    ring
  · intro e hB r c
    have hnB : ¬ (e.isBoundary = true) := by simp [hB]
    rw [edgeK, if_neg hnB, blockPlace_apply, blockPlace_apply,
      blockPlace_apply, blockPlace_apply]
    simp only [negBlock_apply, (springBlock_vals e.angle e.length).1,
      (springBlock_vals e.angle e.length).2.1,
      (springBlock_vals e.angle e.length).2.2.1,
      (springBlock_vals e.angle e.length).2.2.2]
    simp only [entry_eq_mul]
    ring

/-- Witness for C3, applying the block description to a concrete boundary
edge and a concrete interior edge at explicit matrix positions. -/
theorem C3_witness :
    (SEdge.mk 0 1 true 1 0).isBoundary = true ∧
    edgeK (SEdge.mk 0 1 true 1 0) 0 0 =
      blockPlace 0 0 idBlock 0 0 + blockPlace 1 1 idBlock 0 0 ∧
    (SEdge.mk 0 1 false 1 0).isBoundary = false ∧
    edgeK (SEdge.mk 0 1 false 1 0) 0 2 =
      blockPlace 0 0 (springBlock 0 1) 0 2 +
      blockPlace 0 1 (negBlock (springBlock 0 1)) 0 2 +
      blockPlace 1 0 (negBlock (springBlock 0 1)) 0 2 +
      blockPlace 1 1 (springBlock 0 1) 0 2 := by
  refine ⟨rfl, ?_, rfl, ?_⟩
  · exact C3_stiffness_assembly.1 (SEdge.mk 0 1 true 1 0) rfl 0 0
  · exact C3_stiffness_assembly.2.1 (SEdge.mk 0 1 false 1 0) rfl 0 2

end Movement
